import Mathlib

/-!
Verification of the hybrid multi-engine search system (SANY_KEMAN).

Shallow embedding of the core components:
  * `ACMatcher` — the exact-match engine (src/search/ac_matcher.py),
  * `SimilarityMatcher` — the fuzzy engine (src/search/similarity_matcher.py),
  * `HybridSearcher` — dispatcher and score merger (src/search/hybrid_searcher.py),
  * the lifecycle state machine (src/api/search_api.py: `get_hybrid_searcher`,
    `ensure_searcher_ready`, and `HybridSearcher.create_index_with_data`),
  * the sync scheduler (src/indexing/scheduler.py: `DataSyncScheduler.sync_data`).

Modelling conventions:
  * Python floats are modelled as exact rationals (`ℚ`); every comparison the
    claims depend on is far from any floating-point rounding boundary.
  * Wall-clock fields (`took`) are modelled as 0; no claim mentions them.
  * Case folding (`str.lower`) is modelled with Lean's ASCII `String.toLower`;
    it agrees with Python on the ASCII and CJK inputs used by all claims.
  * Calls into external systems (Elasticsearch probes and bulk loads, the
    upstream data loaders, `difflib.SequenceMatcher.ratio`) are parameters of
    the embedding: an `EsWorld` record of probe outcomes, and a `ratio`
    function assumed to land in `[0,1]` (as `difflib` guarantees).
-/

/-! ## Data model (src/core/models.py)

`MetadataField` carries the attributes declared in `core/models.py` together
with the attributes the two in-memory matchers read on the field objects they
are handed (`is_enabled`, `is_entity`, `enum_values`); `enum_values` is the
key/value mapping iterated by `ACMatcher` and `SimilarityMatcher`. -/

structure MetadataField where
  table_name : String
  column_name : String
  chinese_name : String
  /-- source attribute `alias` (a Lean keyword, hence renamed) -/
  aliases : List String
  description : String
  field_type : String
  sample_data : Option String
  is_enabled : Bool
  is_entity : Bool
  enum_values : List (String × String)
  deriving DecidableEq, Repr

structure SearchResult where
  field : MetadataField
  score : ℚ
  matched_text : Option String
  search_method : Option String
  deriving DecidableEq, Repr

structure SearchResponse where
  query : String
  total : ℕ
  results : List SearchResult
  took : ℕ
  search_methods : List String
  tokenization_used : Option Bool
  tokenizer_type : Option String
  deriving DecidableEq, Repr

/-- `SearchRequest.table_name` is `Optional[Union[str, List[str]]]` in the
source; both shapes are kept. -/
inductive TableFilter where
  | one (t : String)
  | many (ts : List String)
  deriving DecidableEq, Repr

structure SearchRequest where
  query : String
  table_name : Option TableFilter
  enabled_only : Bool
  size : ℕ
  use_tokenization : Bool
  tokenizer_type : String
  search_method : String
  highlight : Bool
  deriving DecidableEq, Repr

/-! ## String helpers shared by the matchers

Lean's iterator-based `String` functions (`toLower`, `splitOn`, `startsWith`)
do not reduce inside proofs, so the Python string operations are embedded as
structural functions over the character list. -/

/-- Python `str.lower()` (`String.toLower` as a map over the characters). -/
def lower (s : String) : String := String.mk (s.data.map Char.toLower)

/-- Substring occurrence: scan every suffix for the pattern as a prefix. -/
def containsList : List Char → List Char → Bool
  | s, pat =>
    if pat.isPrefixOf s then true
    else match s with
      | [] => false
      | _ :: rest => containsList rest pat

/-- Python's substring test `pat in s` (`"" in s` is `True`). -/
def strContains (s pat : String) : Bool := containsList s.data pat.data

/-- Maximal runs of non-space characters (accumulator holds the current run,
reversed). -/
def wordsAux : List Char → List Char → List (List Char)
  | cur, [] => if cur = [] then [] else [cur.reverse]
  | cur, c :: cs =>
    if c = ' ' then (if cur = [] then wordsAux [] cs else cur.reverse :: wordsAux [] cs)
    else wordsAux (c :: cur) cs

/-- Python `str.split()` restricted to spaces: the non-empty space-separated
words. -/
def pyWords (s : String) : List String := (wordsAux [] s.data).map String.mk

namespace ACMatcher

/-! ## Exact-match engine (src/search/ac_matcher.py) -/

/-- The match-source classes of `ACMatcher`. -/
inductive MatchType where
  | chinese_name
  | alias
  | column_name
  | description
  | enum_value
  deriving DecidableEq, Repr

/-- `type_weights` from `ACMatcher._calculate_score`. -/
def typeWeight : MatchType → ℚ
  | .chinese_name => 2
  | .alias => 9/5
  | .column_name => 3/2
  | .enum_value => 13/10
  | .description => 1

/-- Exactness bonus from `ACMatcher._calculate_score`: exact equality 2.0,
prefix/suffix 1.5, containment 1.2, otherwise 1.0 (on lower-cased strings). -/
def exactBonus (query matched : String) : ℚ :=
  let q := lower query
  let m := lower matched
  if q = m then 2
  else if q.data.isPrefixOf m.data || q.data.isSuffixOf m.data then 3/2
  else if strContains m q then 6/5
  else 1

/-- `length_similarity = min(len(query), len(matched)) / max(...)`. -/
def lengthSimilarity (query matched : String) : ℚ :=
  ((min query.length matched.length : ℕ) : ℚ) / ((max query.length matched.length : ℕ) : ℚ)

/-- `length_bonus = 1.0 + (length_similarity - 0.5) * 0.5`. -/
def lengthBonus (query matched : String) : ℚ :=
  1 + (lengthSimilarity query matched - 1/2) * (1/2)

/-- `round(x, 3)`: round to 3 decimal places.  (Python uses banker's rounding
on binary floats; the two differ only at exact half-thousandths, which no
claim's inputs hit.) -/
def round3 (x : ℚ) : ℚ := (round (x * 1000) : ℤ) / 1000

/-- `ACMatcher._calculate_score`. -/
def calculateScore (query matched : String) (ty : MatchType) : ℚ :=
  round3 (1 * typeWeight ty * exactBonus query matched * lengthBonus query matched)

/-! The dictionary of patterns built by `ACMatcher.initialize`.  The automaton
is built over the keys of the Python dict `search_terms`; key membership in the
dict equals membership in the stream of terms inserted, so the pattern set is
modelled as the list of inserted terms. -/

/-- The terms one enabled field inserts into `search_terms`, in source order:
Chinese display name, aliases, the column name when longer than 2 characters,
whitespace-split description tokens longer than 1 character, and enum values
longer than 1 character — all lower-cased.  (Python truthiness: empty strings
are skipped by the `if` guards.) -/
def fieldTerms (f : MetadataField) : List String :=
  (if f.chinese_name ≠ "" then [lower f.chinese_name] else [])
  ++ (f.aliases.filter (· ≠ "")).map lower
  ++ (if f.column_name ≠ "" ∧ 2 < f.column_name.length then [lower f.column_name] else [])
  ++ ((pyWords f.description).filter (fun w => 1 < w.length)).map lower
  ++ ((f.enum_values.map Prod.snd).filter (fun v => v ≠ "" ∧ 1 < v.length)).map lower

/-- All patterns added to the automaton for a corpus: disabled fields are
skipped (`if not field.is_enabled: continue`).  The Python dict `search_terms`
dedups keys; key membership in the dict equals membership in this list. -/
def patterns (fields : List MetadataField) : List String :=
  (fields.filter (·.is_enabled)).flatMap fieldTerms

end ACMatcher

namespace SimilarityMatcher

/-! ## Fuzzy engine (src/search/similarity_matcher.py)

`difflib.SequenceMatcher(None, a, b).ratio()` is external library code; it is
a parameter `ratio` of every definition below.  `difflib` guarantees
`0 ≤ ratio a b ≤ 1`; theorems that need it take that bound as a hypothesis. -/

/-- One corpus entry built by `SimilarityMatcher.initialize`. -/
structure CorpusItem where
  field : MetadataField
  text : String
  searchable_texts : List String
  deriving DecidableEq, Repr

/-- The searchable strings collected for a field, in source order: display
name, all aliases (unfiltered `extend`), description, column name, truthy enum
values, truthy sample data. -/
def searchableTexts (f : MetadataField) : List String :=
  (if f.chinese_name ≠ "" then [f.chinese_name] else [])
  ++ f.aliases
  ++ (if f.description ≠ "" then [f.description] else [])
  ++ (if f.column_name ≠ "" then [f.column_name] else [])
  ++ (f.enum_values.map Prod.snd).filter (· ≠ "")
  ++ (match f.sample_data with
      | some s => if s ≠ "" then [s] else []
      | none => [])

/-- `SimilarityMatcher.initialize`: keep enabled fields, join each field's
searchable strings into one lower-cased blob. -/
def buildCorpus (fields : List MetadataField) : List CorpusItem :=
  (fields.filter (·.is_enabled)).map fun f =>
    { field := f
      text := lower (String.intercalate " " (searchableTexts f))
      searchable_texts := searchableTexts f }

/-- CJK range test `'一' <= char <= '鿿'` from `_simple_tokenize`. -/
def isCJKChar (c : Char) : Bool := 0x4e00 ≤ c.toNat && c.toNat ≤ 0x9fff

/-- Python's `\w` in the `re.sub(r'[^\w\s]', ' ', ...)` cleanup, restricted to
the alphanumeric/underscore/CJK characters the corpus uses. -/
def isWordChar (c : Char) : Bool := c.isAlphanum || c == '_' || isCJKChar c

/-- `SimilarityMatcher._simple_tokenize`: lower-case, replace non-word
characters by spaces, split on whitespace; CJK words split per character,
Latin words kept only when longer than one character. -/
def simpleTokenize (text : String) : List String :=
  if text = "" then []
  else
    let cleaned := (lower text).data.map fun c => if isWordChar c then c else ' '
    let words := (wordsAux [] cleaned).map String.mk
    let tokens := words.flatMap fun w =>
      if w.data.any isCJKChar then w.data.map fun c => String.mk [c]
      else if 1 < w.length then [w] else []
    tokens.filter fun t => t ≠ ""

/-- `length_ratio = min(len(query), len(text)) / max(len(query), len(text))`. -/
def lengthRatio (query text : String) : ℚ :=
  ((min query.length text.length : ℕ) : ℚ) / ((max query.length text.length : ℕ) : ℚ)

/-- Per-string similarity: 1.0 on equality, 0.9 on containment either way,
otherwise the edit-based `ratio` (all on the lower-cased string). -/
def stringSimilarity (ratio : String → String → ℚ) (query textLower : String) : ℚ :=
  if query = textLower then 1
  else if strContains textLower query || strContains query textLower then 9/10
  else ratio query textLower

/-- `adjusted_similarity = similarity * (0.7 + 0.3 * length_ratio)`. -/
def adjustedSimilarity (ratio : String → String → ℚ) (query text : String) : ℚ :=
  stringSimilarity ratio query (lower text) * (7/10 + 3/10 * lengthRatio query text)

/-- The per-string update of the similarity loop: skip empty strings, replace
the running maximum when the adjusted similarity strictly exceeds it. -/
def simStep (ratio : String → String → ℚ) (query : String) (acc : ℚ × String)
    (text : String) : ℚ × String :=
  if text = "" then acc
  else
    let adj := adjustedSimilarity ratio query text
    if acc.1 < adj then (adj, text) else acc

/-- The token-overlap step of `_calculate_similarity`: Jaccard overlap of the
simply-tokenized query and blob, taken when it strictly exceeds the running
maximum.  (The best-match text joins the intersection in a fixed order;
Python's set iteration order is unspecified and no claim reads it.) -/
def jaccardUpdate (query fieldText : String) (acc : ℚ × String) : ℚ × String :=
  let query_words := simpleTokenize query
  let field_words := simpleTokenize fieldText
  if query_words ≠ [] ∧ field_words ≠ [] then
    let query_set := query_words.dedup
    let field_set := field_words.dedup
    let inter := query_set.filter (· ∈ field_set)
    let uni := (query_words ++ field_words).dedup
    if uni ≠ [] then
      let jaccard : ℚ := (inter.length : ℚ) / (uni.length : ℚ)
      if acc.1 < jaccard then (jaccard, "词汇匹配: " ++ String.intercalate ", " inter)
      else acc
    else acc
  else acc

/-- `SimilarityMatcher._calculate_similarity`, returning
`(max_similarity, best_match)`.  The running maximum starts at `(0.0, "")`,
takes the whole-blob ratio, then each non-empty searchable string's adjusted
similarity, then (when tokenization is on) the token-set Jaccard overlap. -/
def calculateSimilarity (ratio : String → String → ℚ) (query fieldText : String)
    (searchable_texts : List String) (use_tokenization : Bool) : ℚ × String :=
  let acc0 : ℚ × String := (0, "")
  let overall := ratio query fieldText
  let acc1 :=
    if acc0.1 < overall then
      (overall, if 50 < fieldText.length then fieldText.take 50 ++ "..." else fieldText)
    else acc0
  let acc2 := searchable_texts.foldl (simStep ratio query) acc1
  if use_tokenization then jaccardUpdate query fieldText acc2 else acc2

/-- An entry of the `matches` list in `SimilarityMatcher.search_fields`. -/
structure SimMatch where
  field : MetadataField
  score : ℚ
  matched_text : String
  deriving DecidableEq, Repr

/-- `SimilarityMatcher.search_fields`: lower-case the query, filter the corpus,
keep entries whose similarity exceeds the fixed `0.1` floor, sort by score
descending (stable), truncate to `size`. -/
def searchFields (ratio : String → String → ℚ) (corpus : List CorpusItem)
    (query : String) (table_name : Option String) (entity_only enabled_only : Bool)
    (size : ℕ) (use_tokenization : Bool) : SearchResponse :=
  let query_lower := lower query
  let matchList : List SimMatch := corpus.filterMap fun item =>
    if (match table_name with
        | some t => item.field.table_name != t
        | none => false) then none
    else if entity_only ∧ ¬ item.field.is_entity then none
    else if enabled_only ∧ ¬ item.field.is_enabled then none
    else
      let sim := calculateSimilarity ratio query_lower item.text item.searchable_texts
        use_tokenization
      if 1/10 < sim.1 then some ⟨item.field, sim.1, sim.2⟩ else none
  let sorted := matchList.mergeSort fun a b => b.score ≤ a.score
  let limited := sorted.take size
  let results := limited.map fun m =>
    { field := m.field
      score := m.score
      matched_text := some ("similarity: " ++ m.matched_text)
      search_method := some "similarity" : SearchResult }
  { query := query
    total := matchList.length
    results := results
    took := 0
    search_methods := ["similarity"]
    tokenization_used := none
    tokenizer_type := none }

end SimilarityMatcher

namespace HybridSearcher

/-! ## Dispatcher and score merger (src/search/hybrid_searcher.py)

Engine calls run in worker threads and may raise; each engine's outcome is a
parameter `outcomes : String → Except Unit SearchResponse` (`Except.error` =
the call raised or timed out).  `as_completed` yields finished futures in a
nondeterministic order; the collection loop is modelled in the fixed engine
iteration order — no claim depends on the order of `search_methods`. -/

/-- `HybridSearchConfig.weights` defaults (src/core/models.py). -/
def defaultWeights : List (String × ℚ) :=
  [("elasticsearch", 1), ("ac_matcher", 9/10), ("similarity", 4/5)]

/-- `self.config.weights.get(engine_name, 1.0)`. -/
def weightOf (weights : List (String × ℚ)) (engine : String) : ℚ :=
  match weights.lookup engine with
  | some w => w
  | none => 1

/-- `field_key = f"{table_name}_{column_name}"`. -/
def fieldKey (f : MetadataField) : String := f.table_name ++ "_" ++ f.column_name

/-- One value of the `field_scores` dict in `_merge_search_results`. -/
structure ScoreInfo where
  result : SearchResult
  score : ℚ
  original_score : ℚ
  engine : String
  weight : ℚ
  deriving DecidableEq, Repr

/-- Python dict assignment `d[k] = v`: replace in place (keeping the key's
original position) or append a new key. -/
def upsert (k : String) (v : ScoreInfo) :
    List (String × ScoreInfo) → List (String × ScoreInfo)
  | [] => [(k, v)]
  | (k', v') :: rest => if k = k' then (k, v) :: rest else (k', v') :: upsert k v rest

/-- Processing of one `(engine_name, result)` pair in the merge loop: weight
the raw score and keep it only when the key is new or the weighted score is
strictly higher. -/
def stepMerge (weights : List (String × ℚ)) (d : List (String × ScoreInfo))
    (entry : String × SearchResult) : List (String × ScoreInfo) :=
  let engine := entry.1
  let result := entry.2
  let k := fieldKey result.field
  let w := weightOf weights engine
  let weighted := result.score * w
  match d.lookup k with
  | none => upsert k ⟨result, weighted, result.score, engine, w⟩ d
  | some info =>
      if info.score < weighted then upsert k ⟨result, weighted, result.score, engine, w⟩ d
      else d

/-- The stream of `(engine_name, result)` pairs the merge loop visits, in
source order.  (Responses with an empty result list are skipped by the loop;
they contribute nothing here either.) -/
def allEntries (searchResults : List (String × SearchResponse)) :
    List (String × SearchResult) :=
  searchResults.flatMap fun er => er.2.results.map fun r => (er.1, r)

/-- The `field_scores` dict after the collection loop. -/
def fieldScores (weights : List (String × ℚ))
    (searchResults : List (String × SearchResponse)) : List (String × ScoreInfo) :=
  (allEntries searchResults).foldl (stepMerge weights) []

/-- Conversion of a winning `ScoreInfo` back to a result: the stored result
with its score overwritten by the weighted score and its search method set to
the contributing engine (`extra_info` bookkeeping carries no further data the
claims read). -/
def toMerged (info : ScoreInfo) : SearchResult :=
  { info.result with score := info.score, search_method := some info.engine }

/-- `HybridSearcher._merge_search_results`: weighted dedup then a stable sort
by score descending. -/
def mergeSearchResults (weights : List (String × ℚ))
    (searchResults : List (String × SearchResponse)) : List SearchResult :=
  ((fieldScores weights searchResults).map fun kv => toMerged kv.2).mergeSort
    fun a b => b.score ≤ a.score

/-- `HybridSearcher._empty_response`. -/
def emptyResponse (req : SearchRequest) : SearchResponse :=
  { query := req.query
    total := 0
    results := []
    took := 0
    search_methods := []
    tokenization_used := some req.use_tokenization
    tokenizer_type := if req.use_tokenization then some req.tokenizer_type else none }

/-- `HybridSearcher._hybrid_search`: fan out to every engine, absorb per-engine
failures (a failed engine is recorded with an empty response and left out of
`used_methods`), merge, truncate to `size`. -/
def hybridSearch (engines : List String) (outcomes : String → Except Unit SearchResponse)
    (weights : List (String × ℚ)) (req : SearchRequest) : SearchResponse :=
  let collected := engines.map fun e => (e, outcomes e)
  let used_methods := collected.filterMap fun eo =>
    match eo.2 with
    | .ok _ => some eo.1
    | .error _ => none
  let search_results := collected.map fun eo =>
    (eo.1, match eo.2 with
           | .ok r => r
           | .error _ => emptyResponse req)
  let merged := mergeSearchResults weights search_results
  { query := req.query
    total := merged.length
    results := merged.take req.size
    took := 0
    search_methods := used_methods
    tokenization_used := some req.use_tokenization
    tokenizer_type := if req.use_tokenization then some req.tokenizer_type else none }

/-- The dispatcher state the claims read: the configured engine names (keys of
`self.engines`) and the `initialized` flag. -/
structure Searcher where
  engines : List String
  initialized : Bool
  deriving DecidableEq, Repr

/-- `HybridSearcher._single_engine_search` / `_dimension_values_search`: a
single engine call with `try/except` returning `_empty_response` on failure. -/
def singleCall (outcome : Except Unit SearchResponse) (req : SearchRequest) : SearchResponse :=
  match outcome with
  | .ok r => r
  | .error _ => emptyResponse req

/-- `HybridSearcher.search`: the not-initialized guard returns an inline empty
response (same shape as `_empty_response`), then dispatch on `search_method`.
`dimOutcome` stands for the Elasticsearch dimension-values call. -/
def search (s : Searcher) (outcomes : String → Except Unit SearchResponse)
    (dimOutcome : Except Unit SearchResponse) (weights : List (String × ℚ))
    (req : SearchRequest) : SearchResponse :=
  if ¬ s.initialized then
    { query := req.query
      total := 0
      results := []
      took := 0
      search_methods := []
      tokenization_used := some req.use_tokenization
      tokenizer_type := if req.use_tokenization then some req.tokenizer_type else none }
  else if req.search_method = "hybrid" then hybridSearch s.engines outcomes weights req
  else if req.search_method = "dimension_values" then
    if "elasticsearch" ∈ s.engines then singleCall dimOutcome req else emptyResponse req
  else if req.search_method ∈ s.engines then singleCall (outcomes req.search_method) req
  else emptyResponse req

end HybridSearcher

/-! ## Lifecycle state machine (src/api/search_api.py and
`HybridSearcher.create_index_with_data`)

The probes against Elasticsearch and the data loaders are external calls;
their outcomes are collected in an `EsWorld` record. -/

/-- Outcomes of the external probes and loads made during readiness checks
and rebuilds: existence and document count of the three sub-indices (primary
entity fields, dimension values, metrics), whether dimension indexing is
enabled in the configuration, the rows returned by the metadata loader, and
the success of each engine's build step inside `HybridSearcher.initialize`. -/
structure EsWorld where
  fieldsIndexExists : Bool
  fieldsCount : ℕ
  dimIndexExists : Bool
  dimCount : ℕ
  metricIndexExists : Bool
  metricCount : ℕ
  dimensionIndexingEnabled : Bool
  loadedFields : List MetadataField
  esInitOk : Bool
  acInitOk : Bool
  simInitOk : Bool
  deriving DecidableEq, Repr

namespace Lifecycle

open HybridSearcher (Searcher)

/-- How a `create_index_with_data` call ended: the early "all indices already
have data" return, a full rebuild, or the "未能加载数据" failure. -/
inductive BuildOutcome where
  | skippedExisting
  | rebuilt
  | loadFailed
  deriving DecidableEq, Repr

structure BuildResult where
  success : Bool
  searcher : Searcher
  outcome : BuildOutcome
  deriving DecidableEq, Repr

/-- `HybridSearcher.initialize` succeeds when at least one engine builds
(`success_count > 0`), and sets `self.initialized` to that. -/
def engineBuildSuccess (w : EsWorld) : Bool := w.esInitOk || w.acInitOk || w.simInitOk

/-- `HybridSearcher.create_index_with_data`: without `force_recreate`, skip
when the fields index has data and (when dimension indexing is enabled) the
dimension-values index has data — marking the searcher initialized with no
rebuild; otherwise load the data (failing when the loader returns nothing) and
run `initialize`.  The metrics index is never consulted. -/
def createIndexWithData (w : EsWorld) (s : Searcher) (force_recreate : Bool) : BuildResult :=
  let fields_ready := w.fieldsIndexExists ∧ 0 < w.fieldsCount
  let dimensions_ready :=
    if w.dimensionIndexingEnabled then w.dimIndexExists ∧ 0 < w.dimCount else True
  if ¬ force_recreate ∧ fields_ready ∧ dimensions_ready then
    { success := true, searcher := { s with initialized := true }, outcome := .skippedExisting }
  else if w.loadedFields = [] then
    { success := false, searcher := s, outcome := .loadFailed }
  else
    { success := engineBuildSuccess w
      searcher := { s with initialized := engineBuildSuccess w }
      outcome := .rebuilt }

structure EnsureResult where
  ok : Bool
  searcher : Searcher
  didRebuild : Bool
  deriving DecidableEq, Repr

/-- `ensure_searcher_ready`: no-op when already initialized; otherwise probe
ONLY the primary fields index and certify readiness when it has data;
otherwise fall through to `create_index_with_data(force_recreate=False)`.
The function holds no lock of any kind. -/
def ensureSearcherReady (w : EsWorld) (s : Searcher) : EnsureResult :=
  if s.initialized then { ok := true, searcher := s, didRebuild := false }
  else if w.fieldsIndexExists ∧ 0 < w.fieldsCount then
    { ok := true, searcher := { s with initialized := true }, didRebuild := false }
  else
    let b := createIndexWithData w s false
    { ok := b.success, searcher := b.searcher, didRebuild := b.outcome = .rebuilt }

/-- `get_hybrid_searcher`, first call (fresh searcher, initialization not yet
attempted): probe all three sub-indices; skip initialization only when all
three exist with data; otherwise run `create_index_with_data`. -/
def getHybridSearcherFirstCall (w : EsWorld) : EnsureResult :=
  let s0 : Searcher := { engines := ["elasticsearch", "ac_matcher", "similarity"],
                         initialized := false }
  let fields_exist := w.fieldsIndexExists ∧ 0 < w.fieldsCount
  let metrics_exist := w.metricIndexExists ∧ 0 < w.metricCount
  let dimension_values_exist := w.dimIndexExists ∧ 0 < w.dimCount
  if fields_exist ∧ metrics_exist ∧ dimension_values_exist then
    { ok := true, searcher := { s0 with initialized := true }, didRebuild := false }
  else
    let b := createIndexWithData w s0 false
    { ok := b.success, searcher := b.searcher, didRebuild := b.outcome = .rebuilt }

/-- The HTTP 503 detail raised by the search endpoints when
`ensure_searcher_ready` fails. -/
def notReadyDetail : String := "搜索引擎初始化失败，请检查数据文件是否存在或联系管理员"

/-- The `/fields` search endpoint: `ensure_searcher_ready` first, raising
HTTP 503 on failure, then `HybridSearcher.search` on the ensured searcher. -/
def searchFieldsEndpoint (w : EsWorld) (s : Searcher)
    (outcomes : String → Except Unit SearchResponse)
    (dimOutcome : Except Unit SearchResponse) (weights : List (String × ℚ))
    (req : SearchRequest) : Except String SearchResponse :=
  let e := ensureSearcherReady w s
  if ¬ e.ok then .error notReadyDetail
  else .ok (HybridSearcher.search e.searcher outcomes dimOutcome weights req)

/-- `ensure_searcher_ready` reads no lock: when N callers race and each of
them observes the shared searcher state before any of them writes it (an
admissible schedule, since the function performs no synchronization), every
caller runs the same code on the same observed state.  The rebuild count of
that schedule is N times the single-caller rebuild indicator. -/
def concurrentEnsureRebuilds (w : EsWorld) (s : Searcher) (n : ℕ) : ℕ :=
  n * (if (ensureSearcherReady w s).didRebuild then 1 else 0)

end Lifecycle

namespace DataSyncScheduler

/-! ## Sync scheduler (src/indexing/scheduler.py) -/

/-- Result dict of one sub-sync (`success`/`message`). -/
structure SubSyncOutcome where
  success : Bool
  message : String
  deriving DecidableEq, Repr

/-- A sub-sync either returns its result dict or raises (`Except.error` with
the exception text). -/
abbrev SubSyncRun := Except String SubSyncOutcome

/-- The fields of `sync_data`'s `results` dict that the claims read.  A `none`
sub-result models the key still holding its initial `None` (sub-sync never
attempted). -/
structure SyncRunResult where
  metadata : Option SubSyncOutcome
  dimension_values : Option SubSyncOutcome
  metrics : Option SubSyncOutcome
  success : Bool
  errors : List String
  deriving DecidableEq, Repr

/-- The body of `DataSyncScheduler.sync_data` between lock acquisition and
release: metadata first; dimension values only when metadata reported
success (inside the `else` branch); metrics always, in its own `try`. -/
def syncDataCore (metadataRun dimRun metricsRun : SubSyncRun) : SyncRunResult :=
  let step1 : Option SubSyncOutcome × Option SubSyncOutcome × Bool × List String :=
    match metadataRun with
    | .ok m =>
      if ¬ m.success then
        (some m, none, false, ["元数据同步失败: " ++ m.message])
      else
        match dimRun with
        | .ok d =>
          if ¬ d.success then (some m, some d, false, ["维度值同步失败: " ++ d.message])
          else (some m, some d, true, [])
        | .error ex =>
          (some m, some ⟨false, ex⟩, false, ["维度值同步异常: " ++ ex])
    | .error ex =>
      (some ⟨false, ex⟩, none, false, ["元数据同步异常: " ++ ex])
  let step2 : Option SubSyncOutcome × Bool × List String :=
    match metricsRun with
    | .ok m =>
      if ¬ m.success then (some m, false, ["指标同步失败: " ++ m.message])
      else (some m, true, [])
    | .error ex => (some ⟨false, ex⟩, false, ["指标同步异常: " ++ ex])
  { metadata := step1.1
    dimension_values := step1.2.1
    metrics := step2.1
    success := step1.2.2.1 && step2.2.1
    errors := step1.2.2.2 ++ step2.2.2 }

/-- Scheduler state around `sync_data`: the `is_syncing` flag and the
`sync_lock` bit. -/
structure SchedState where
  is_syncing : Bool
  lockHeld : Bool
  deriving DecidableEq, Repr

/-- How one `sync_data` call ended: skipped on the `is_syncing` flag
("同步正在进行中"), skipped on the non-blocking lock ("无法获取同步锁"), or ran. -/
inductive SyncOutcome where
  | skippedSyncing
  | skippedLock
  | ran (r : SyncRunResult)
  deriving DecidableEq, Repr

/-- `DataSyncScheduler.sync_data`: flag check (bypassed by `force`), then a
non-blocking lock acquisition; the lock is released in the `finally`. -/
def syncData (st : SchedState) (force : Bool)
    (metadataRun dimRun metricsRun : SubSyncRun) : SyncOutcome × SchedState :=
  if st.is_syncing ∧ ¬ force then (.skippedSyncing, st)
  else if st.lockHeld then (.skippedLock, st)
  else (.ran (syncDataCore metadataRun dimRun metricsRun),
        { is_syncing := false, lockHeld := false })

/-- N overlapping `sync_data` callers: lock acquisition (`threading.Lock`) is
atomic, so the attempts serialize; while the winner is still inside the body
no release happens, so later attempts see the lock held.  Returns how many of
the n callers actually execute the sync body. -/
def overlappingSyncRuns (n : ℕ) : ℕ :=
  (((List.range n).foldl
    (fun acc _ =>
      if acc.1 then (acc.1, acc.2)  -- lock already held: this caller skips
      else (true, acc.2 + 1))       -- this caller acquires and runs
    ((false : Bool), (0 : ℕ)))).2

end DataSyncScheduler

/-! ## Spec-side description of the exact-match pattern set -/

/-- The spec's description of the automaton dictionary — "the case-folded set
of {display name, every alias, column/key name (if length > 2 chars),
whitespace-split description tokens (length > 1), every enum-value string}" —
with the enum clause amended to require length > 1 (which is what the code
enforces). -/
def ACMatcher.specTermSet (fields : List MetadataField) (t : String) : Prop :=
  ∃ f, f ∈ fields ∧ f.is_enabled = true ∧
    ((f.chinese_name ≠ "" ∧ lower f.chinese_name = t) ∨
     (∃ a, a ∈ f.aliases ∧ a ≠ "" ∧ lower a = t) ∨
     (f.column_name ≠ "" ∧ 2 < f.column_name.length ∧ lower f.column_name = t) ∨
     (∃ d, d ∈ pyWords f.description ∧ 1 < d.length ∧ lower d = t) ∨
     (∃ kv, kv ∈ f.enum_values ∧ kv.2 ≠ "" ∧ 1 < kv.2.length ∧ lower kv.2 = t))

/-! ## Concrete instances used by counterexamples and witnesses -/

/-- A dimension field whose enum values contain the single-character string
"男". -/
def sexField : MetadataField :=
  { table_name := "t", column_name := "sex", chinese_name := "性别", aliases := [],
    description := "", field_type := "DIMENSION", sample_data := none,
    is_enabled := true, is_entity := true, enum_values := [("1", "男")] }

/-- A dispatcher whose `initialized` flag is still false. -/
def searcherNotReady : HybridSearcher.Searcher :=
  { engines := ["elasticsearch", "ac_matcher", "similarity"], initialized := false }

/-- A hybrid-mode search request. -/
def hybridReq : SearchRequest :=
  { query := "订单状态", table_name := none, enabled_only := true, size := 10,
    use_tokenization := true, tokenizer_type := "ik_max_word",
    search_method := "hybrid", highlight := true }

/-- Engine outcomes where every engine call raises. -/
def noOutcomes : String → Except Unit SearchResponse := fun _ => Except.error ()

/-- Probe outcomes: the primary fields index exists with 5 documents; the
metrics and dimension-values indices do not exist. -/
def worldFieldsOnly : EsWorld :=
  { fieldsIndexExists := true, fieldsCount := 5, dimIndexExists := false, dimCount := 0,
    metricIndexExists := false, metricCount := 0, dimensionIndexingEnabled := true,
    loadedFields := [], esInitOk := false, acInitOk := false, simInitOk := false }

/-- Probe outcomes: nothing exists yet, data loads fine, every engine builds. -/
def worldNeedsBuild : EsWorld :=
  { fieldsIndexExists := false, fieldsCount := 0, dimIndexExists := false, dimCount := 0,
    metricIndexExists := false, metricCount := 0, dimensionIndexingEnabled := true,
    loadedFields := [sexField], esInitOk := true, acInitOk := true, simInitOk := true }

/-- A stand-in for `difflib`'s ratio that always reports 0 (any function into
`[0,1]` refutes claim C5; the containment short-circuit never consults it). -/
def ratioZero : String → String → ℚ := fun _ _ => 0

/-- The entity of the spec's length-mismatch scenario: its only searchable
string matching the query "a" is "abcdefghij". -/
def mismatchField : MetadataField :=
  { table_name := "t", column_name := "xyz", chinese_name := "abcdefghij", aliases := [],
    description := "", field_type := "DIMENSION", sample_data := none,
    is_enabled := true, is_entity := true, enum_values := [] }

/-- The fuzzy-engine corpus holding only `mismatchField`. -/
def mismatchCorpus : List SimilarityMatcher.CorpusItem :=
  SimilarityMatcher.buildCorpus [mismatchField]

/-- The alias-match scenario field "orders.status". -/
def statusField : MetadataField :=
  { table_name := "orders", column_name := "status", chinese_name := "订单状态",
    aliases := ["状态"], description := "", field_type := "DIMENSION", sample_data := none,
    is_enabled := true, is_entity := true, enum_values := [] }

/-- An Elasticsearch response carrying `statusField` with raw score 1.5. -/
def respES : SearchResponse :=
  { query := "状态", total := 1,
    results := [{ field := statusField, score := 3/2, matched_text := none,
                  search_method := some "elasticsearch" }],
    took := 0, search_methods := ["elasticsearch"],
    tokenization_used := none, tokenizer_type := none }

/-- An exact-match response carrying `statusField` with raw score 2.0. -/
def respAC : SearchResponse :=
  { query := "状态", total := 1,
    results := [{ field := statusField, score := 2, matched_text := some "alias: 状态",
                  search_method := some "ac_matcher" }],
    took := 0, search_methods := ["ac_matcher"],
    tokenization_used := none, tokenizer_type := none }

/-- A fuzzy response carrying `statusField` with raw score 0.9. -/
def respSim : SearchResponse :=
  { query := "状态", total := 1,
    results := [{ field := statusField, score := 9/10,
                  matched_text := some "similarity: 状态",
                  search_method := some "similarity" }],
    took := 0, search_methods := ["similarity"],
    tokenization_used := none, tokenizer_type := none }

/-- Engine outcomes for the "Full-Text engine down" scenario: Elasticsearch
raises, the other two engines answer. -/
def outcomesEsDown : String → Except Unit SearchResponse := fun e =>
  if e = "elasticsearch" then Except.error ()
  else if e = "ac_matcher" then Except.ok respAC
  else Except.ok respSim

/-- A metadata sub-sync that returns `success=False`. -/
def metaFailRun : DataSyncScheduler.SubSyncRun :=
  Except.ok { success := false, message := "API返回的元数据为空" }

/-- A sub-sync that returns `success=True`. -/
def okRun : DataSyncScheduler.SubSyncRun := Except.ok { success := true, message := "成功" }

/-- The `sync_data` result when the metadata sub-sync fails and the other two
sub-sync functions would succeed. -/
def syncMetaFail : DataSyncScheduler.SyncRunResult :=
  DataSyncScheduler.syncDataCore metaFailRun okRun okRun

/-! ## Theorems -/

/-! ### C3 — the exact-match length bonus -/

/-- C3 counterexample: for query "a" and matched text "abcd" the length
similarity is 1/4, and the length bonus `1 + (1/4 - 1/2) * 1/2 = 7/8` is
strictly below 1.0 — the claimed lower bound 1.0 is violated. -/
theorem claim_C3_counterexample :
    ACMatcher.lengthSimilarity "a" "abcd" = 1/4 ∧
    ACMatcher.lengthBonus "a" "abcd" = 7/8 ∧
    ACMatcher.lengthBonus "a" "abcd" < 1 := by
  have l1 : ("a" : String).length = 1 := rfl
  have l2 : ("abcd" : String).length = 4 := rfl
  unfold ACMatcher.lengthBonus ACMatcher.lengthSimilarity
  rw [l1, l2]
  norm_num [Nat.min_def, Nat.max_def]

/-- C3 amended: for non-empty query and matched text the length bonus
`1 + (min/max - 1/2) * 1/2` lies in the interval (3/4, 5/4], and it is at
least 1.0 exactly when the longer string is at most twice the shorter one. -/
theorem claim_C3_amended (q m : String) (hq : 0 < q.length) (hm : 0 < m.length) :
    3/4 < ACMatcher.lengthBonus q m ∧ ACMatcher.lengthBonus q m ≤ 5/4 ∧
      (1 ≤ ACMatcher.lengthBonus q m ↔
        ((max q.length m.length : ℕ) : ℚ) ≤ 2 * ((min q.length m.length : ℕ) : ℚ)) := by
  have ha : (1 : ℚ) ≤ ((min q.length m.length : ℕ) : ℚ) := by
    exact_mod_cast le_min hq hm
  have hab : ((min q.length m.length : ℕ) : ℚ) ≤ ((max q.length m.length : ℕ) : ℚ) := by
    exact_mod_cast (min_le_max : min q.length m.length ≤ max q.length m.length)
  have hb : (0 : ℚ) < ((max q.length m.length : ℕ) : ℚ) := lt_of_lt_of_le (by linarith) hab
  unfold ACMatcher.lengthBonus ACMatcher.lengthSimilarity
  set a : ℚ := ((min q.length m.length : ℕ) : ℚ) with hadef
  set b : ℚ := ((max q.length m.length : ℕ) : ℚ) with hbdef
  have hr0 : 0 < a / b := div_pos (by linarith) hb
  have hr1 : a / b ≤ 1 := (div_le_one hb).mpr hab
  refine ⟨by linarith, by linarith, ?_, ?_⟩
  · intro h
    have h2 : 1/2 ≤ a / b := by linarith
    have h3 := (le_div_iff₀ hb).mp h2
    linarith
  · intro h
    have h2 : 1/2 ≤ a / b := by rw [le_div_iff₀ hb]; linarith
    linarith

/-- Witness for C3 amended at query "ab", matched text "abc". -/
theorem claim_C3_amended_witness :
    (0 < "ab".length ∧ 0 < "abc".length) ∧
    (3/4 < ACMatcher.lengthBonus "ab" "abc" ∧ ACMatcher.lengthBonus "ab" "abc" ≤ 5/4 ∧
      (1 ≤ ACMatcher.lengthBonus "ab" "abc" ↔
        ((max "ab".length "abc".length : ℕ) : ℚ) ≤ 2 * ((min "ab".length "abc".length : ℕ) : ℚ))) :=
  ⟨⟨by decide, by decide⟩, claim_C3_amended "ab" "abc" (by decide) (by decide)⟩

/-! ### C4 — the exact-match pattern dictionary -/

/-- Membership in `if c then [x] else []`. -/
theorem mem_ite_singleton {α : Type} {c : Prop} [Decidable c] {x t : α} :
    (t ∈ (if c then [x] else [])) ↔ c ∧ x = t := by
  split_ifs with h <;> simp [h, eq_comm]

/-- Membership in one field's contribution to the automaton dictionary. -/
theorem mem_fieldTerms (f : MetadataField) (t : String) :
    t ∈ ACMatcher.fieldTerms f ↔
      ((f.chinese_name ≠ "" ∧ lower f.chinese_name = t) ∨
       (∃ a, a ∈ f.aliases ∧ a ≠ "" ∧ lower a = t) ∨
       (f.column_name ≠ "" ∧ 2 < f.column_name.length ∧ lower f.column_name = t) ∨
       (∃ d, d ∈ pyWords f.description ∧ 1 < d.length ∧ lower d = t) ∨
       (∃ kv, kv ∈ f.enum_values ∧ kv.2 ≠ "" ∧ 1 < kv.2.length ∧ lower kv.2 = t)) := by
  simp only [ACMatcher.fieldTerms, List.mem_append, List.mem_map, List.mem_filter,
    mem_ite_singleton, decide_eq_true_eq, and_assoc, ne_eq]
  constructor
  · rintro ((((h | h) | h) | h) | ⟨a, ⟨kv, hkv, rfl⟩, hrest⟩)
    · exact Or.inl h
    · exact Or.inr (Or.inl h)
    · exact Or.inr (Or.inr (Or.inl h))
    · exact Or.inr (Or.inr (Or.inr (Or.inl h)))
    · exact Or.inr (Or.inr (Or.inr (Or.inr ⟨kv, hkv, hrest⟩)))
  · rintro (h | h | h | h | ⟨kv, hkv, hrest⟩)
    · exact Or.inl (Or.inl (Or.inl (Or.inl h)))
    · exact Or.inl (Or.inl (Or.inl (Or.inr h)))
    · exact Or.inl (Or.inl (Or.inr h))
    · exact Or.inl (Or.inr h)
    · exact Or.inr ⟨kv.2, ⟨kv, hkv, rfl⟩, hrest⟩

/-- C4 amended: the automaton dictionary is exactly the case-folded set of
{display name, every non-empty alias, column name of length > 2,
whitespace-split description tokens of length > 1, enum values of length > 1}
of the enabled fields; enum values of length 1 are NOT added. -/
theorem claim_C4_amended (fields : List MetadataField) (t : String) :
    t ∈ ACMatcher.patterns fields ↔ ACMatcher.specTermSet fields t := by
  unfold ACMatcher.patterns ACMatcher.specTermSet
  simp only [List.mem_flatMap, List.mem_filter, mem_fieldTerms]
  constructor
  · rintro ⟨f, ⟨hf, he⟩, ht⟩
    exact ⟨f, hf, he, ht⟩
  · rintro ⟨f, hf, he, ht⟩
    exact ⟨f, ⟨hf, he⟩, ht⟩

/-- C4 counterexample: "男" is a non-empty enum-value string of an enabled
field, yet (being a single character) it is not added to the automaton
dictionary — refuting "every non-empty enum-value string is added". -/
theorem claim_C4_counterexample :
    ("1", "男") ∈ sexField.enum_values ∧ "男" ≠ "" ∧ sexField.is_enabled = true ∧
    lower "男" ∉ ACMatcher.patterns [sexField] ∧ "男" ∉ ACMatcher.patterns [sexField] := by
  refine ⟨by decide, by decide, by decide, ?_, ?_⟩ <;> decide

/-! ### C1 — "not ready" dispatch semantics -/

/-- C1 counterexample: a hybrid-mode search on an uninitialized dispatcher
returns the plain empty success response (`total = 0`, no results, no
engines) — the same value `_empty_response` produces — not an error; the
dispatcher's return type carries no error at all. -/
theorem claim_C1_counterexample :
    HybridSearcher.search searcherNotReady noOutcomes (Except.error ())
        HybridSearcher.defaultWeights hybridReq
      = HybridSearcher.emptyResponse hybridReq ∧
    (HybridSearcher.emptyResponse hybridReq).total = 0 ∧
    (HybridSearcher.emptyResponse hybridReq).results = [] ∧
    (HybridSearcher.emptyResponse hybridReq).search_methods = [] ∧
    hybridReq.search_method = "hybrid" ∧ searcherNotReady.initialized = false := by
  refine ⟨?_, rfl, rfl, rfl, rfl, rfl⟩
  rfl

/-- A successful `create_index_with_data` leaves the searcher initialized. -/
theorem create_success_initialized (w : EsWorld) (s : HybridSearcher.Searcher)
    (force : Bool) :
    (Lifecycle.createIndexWithData w s force).success = true →
    (Lifecycle.createIndexWithData w s force).searcher.initialized = true := by
  unfold Lifecycle.createIndexWithData
  dsimp only
  split_ifs <;> simp

/-- `ensure_searcher_ready` only reports success with an initialized
searcher. -/
theorem ensure_ok_initialized (w : EsWorld) (s : HybridSearcher.Searcher) :
    (Lifecycle.ensureSearcherReady w s).ok = true →
    (Lifecycle.ensureSearcherReady w s).searcher.initialized = true := by
  unfold Lifecycle.ensureSearcherReady
  split_ifs with h1 h2
  · intro _; simpa using h1
  · intro _; rfl
  · exact create_success_initialized w s false

/-- C1 amended: the explicit "not ready" error lives in the API layer, not in
`HybridSearcher.search`: every request to the search endpoint either fails
with the HTTP 503 detail (when readiness cannot be established) or is served
by a searcher whose `initialized` flag is true — an uninitialized dispatch is
never silently answered with an empty success. -/
theorem claim_C1_amended (w : EsWorld) (s : HybridSearcher.Searcher)
    (outcomes : String → Except Unit SearchResponse)
    (dimOutcome : Except Unit SearchResponse) (weights : List (String × ℚ))
    (req : SearchRequest) :
    ((Lifecycle.ensureSearcherReady w s).ok = false ∧
      Lifecycle.searchFieldsEndpoint w s outcomes dimOutcome weights req
        = Except.error Lifecycle.notReadyDetail)
    ∨ ((Lifecycle.ensureSearcherReady w s).searcher.initialized = true ∧
      Lifecycle.searchFieldsEndpoint w s outcomes dimOutcome weights req
        = Except.ok (HybridSearcher.search (Lifecycle.ensureSearcherReady w s).searcher
            outcomes dimOutcome weights req)) := by
  by_cases h : (Lifecycle.ensureSearcherReady w s).ok = true
  · right
    refine ⟨ensure_ok_initialized w s h, ?_⟩
    unfold Lifecycle.searchFieldsEndpoint
    simp [h]
  · left
    simp only [Bool.not_eq_true] at h
    refine ⟨h, ?_⟩
    unfold Lifecycle.searchFieldsEndpoint
    simp [h]

/-! ### C2 — which sub-indices readiness certification checks -/

/-- C2 counterexample: with only the primary fields index present (5
documents) and the metrics and dimension-values indices missing,
`ensure_searcher_ready` certifies readiness — it marks the searcher
initialized without any rebuild — refuting "only if all three sub-indices
exist with document count > 0". -/
theorem claim_C2_counterexample :
    (Lifecycle.ensureSearcherReady worldFieldsOnly searcherNotReady).ok = true ∧
    (Lifecycle.ensureSearcherReady worldFieldsOnly searcherNotReady).searcher.initialized
      = true ∧
    (Lifecycle.ensureSearcherReady worldFieldsOnly searcherNotReady).didRebuild = false ∧
    worldFieldsOnly.metricIndexExists = false ∧
    worldFieldsOnly.dimIndexExists = false := by
  refine ⟨rfl, rfl, rfl, rfl, rfl⟩

/-- C2 amended: the certify-without-rebuild conditions actually implemented:
the first probe (`get_hybrid_searcher`) marks the searcher initialized with no
rebuild iff the fields index has data and — only when dimension indexing is
enabled — the dimension-values index has data (through
`create_index_with_data`'s skip path, which never consults the metrics
index); `ensure_searcher_ready` certifies on the fields index alone. -/
theorem claim_C2_amended (w : EsWorld) (s : HybridSearcher.Searcher)
    (hs : s.initialized = false) :
    ((Lifecycle.getHybridSearcherFirstCall w).searcher.initialized = true ∧
        (Lifecycle.getHybridSearcherFirstCall w).didRebuild = false ↔
      (w.fieldsIndexExists = true ∧ 0 < w.fieldsCount) ∧
        (w.dimensionIndexingEnabled = true →
          w.dimIndexExists = true ∧ 0 < w.dimCount))
    ∧ ((Lifecycle.ensureSearcherReady w s).searcher.initialized = true ∧
        (Lifecycle.ensureSearcherReady w s).didRebuild = false ↔
      w.fieldsIndexExists = true ∧ 0 < w.fieldsCount) := by
  constructor
  · unfold Lifecycle.getHybridSearcherFirstCall Lifecycle.createIndexWithData
    dsimp only
    split_ifs <;> simp_all
  · unfold Lifecycle.ensureSearcherReady Lifecycle.createIndexWithData
    dsimp only
    split_ifs <;> simp_all

/-- Witness for C2 amended at the fields-only probe world. -/
theorem claim_C2_amended_witness :
    ((Lifecycle.getHybridSearcherFirstCall worldFieldsOnly).searcher.initialized = true ∧
        (Lifecycle.getHybridSearcherFirstCall worldFieldsOnly).didRebuild = false ↔
      (worldFieldsOnly.fieldsIndexExists = true ∧ 0 < worldFieldsOnly.fieldsCount) ∧
        (worldFieldsOnly.dimensionIndexingEnabled = true →
          worldFieldsOnly.dimIndexExists = true ∧ 0 < worldFieldsOnly.dimCount))
    ∧ ((Lifecycle.ensureSearcherReady worldFieldsOnly searcherNotReady).searcher.initialized
          = true ∧
        (Lifecycle.ensureSearcherReady worldFieldsOnly searcherNotReady).didRebuild = false ↔
      worldFieldsOnly.fieldsIndexExists = true ∧ 0 < worldFieldsOnly.fieldsCount) :=
  claim_C2_amended worldFieldsOnly searcherNotReady rfl

/-! ### C8 — sub-sync error containment in one sync run -/

/-- C8 counterexample: when the metadata sub-sync reports failure, the
dimension-values sub-sync is never attempted (its result stays `None`), even
though its own runner would have succeeded — refuting "metadata, dimension
values, and metrics are each still attempted".  Metrics still runs and the
aggregate success flag is false. -/
theorem claim_C8_counterexample :
    syncMetaFail.dimension_values = none ∧
    syncMetaFail.metrics = some { success := true, message := "成功" } ∧
    syncMetaFail.success = false ∧
    syncMetaFail.errors = ["元数据同步失败: API返回的元数据为空"] ∧
    okRun = Except.ok { success := true, message := "成功" } := by
  refine ⟨rfl, rfl, rfl, rfl, rfl⟩

/-- C8 amended: within one sync run the metrics sub-sync is always attempted
and a later failure never erases an earlier result, but a metadata failure
skips the dimension-values sub-sync; the aggregate success flag is true iff
all three sub-syncs ran and succeeded, and any failure leaves a per-subsystem
error message. -/
theorem claim_C8_amended (a b c : DataSyncScheduler.SubSyncRun) :
    (DataSyncScheduler.syncDataCore a b c).metrics.isSome = true
    ∧ ((DataSyncScheduler.syncDataCore a b c).success = true ↔
        (∃ m, a = Except.ok m ∧ m.success = true) ∧
        (∃ d, b = Except.ok d ∧ d.success = true) ∧
        (∃ k, c = Except.ok k ∧ k.success = true))
    ∧ ((∀ m, a = Except.ok m → m.success = false) →
        (DataSyncScheduler.syncDataCore a b c).dimension_values = none)
    ∧ ((DataSyncScheduler.syncDataCore a b c).success = false →
        (DataSyncScheduler.syncDataCore a b c).errors ≠ []) := by
  unfold DataSyncScheduler.syncDataCore
  rcases a with ea | ⟨ma, sa⟩
  · rcases c with ec | ⟨mc, sc⟩
    · simp
    · cases mc <;> simp
  · rcases b with eb | ⟨mb, sb⟩
    · rcases c with ec | ⟨mc, sc⟩
      · cases ma <;> simp
      · cases ma <;> cases mc <;> simp
    · rcases c with ec | ⟨mc, sc⟩
      · cases ma <;> cases mb <;> simp
      · cases ma <;> cases mb <;> cases mc <;> simp

/-- Witness for C8 amended: metadata fails, the other two runners succeed. -/
theorem claim_C8_amended_witness :
    syncMetaFail.dimension_values = none ∧ syncMetaFail.metrics.isSome = true ∧
    ¬ syncMetaFail.success = true :=
  ⟨(claim_C8_amended metaFailRun okRun okRun).2.2.1
      (fun m hm => by cases hm; rfl),
   (claim_C8_amended metaFailRun okRun okRun).1,
   fun h => by
    have := ((claim_C8_amended metaFailRun okRun okRun).2.1.mp h).1
    obtain ⟨m, hm, hs⟩ := this
    cases hm
    exact absurd hs (by decide)⟩

/-! ### C9 — single-flight guarantees of `ensureReady` and the scheduler -/

/-- C9 counterexample: `ensure_searcher_ready` holds no lock, so two callers
racing through the uninitialized check both rebuild: the admissible schedule
in which both observe the initial state performs 2 rebuilds, not 1, and
neither caller receives a "build in progress" answer. -/
theorem claim_C9_counterexample :
    Lifecycle.concurrentEnsureRebuilds worldNeedsBuild searcherNotReady 2 = 2 ∧
    (Lifecycle.ensureSearcherReady worldNeedsBuild searcherNotReady).didRebuild = true ∧
    (Lifecycle.ensureSearcherReady worldNeedsBuild searcherNotReady).ok = true := by
  refine ⟨rfl, rfl, rfl⟩

/-- C9 amended: the single-flight guard lives in the scheduler, not in
`ensure_searcher_ready`: a `sync_data` caller that finds the non-blocking lock
held returns a skip answer without running any sub-sync and without touching
the state, the "sync in progress" result is exactly the lock-held, not-yet-
flagged case, and among n overlapping `sync_data` callers exactly one
executes the sync body. -/
theorem claim_C9_amended :
    (∀ (st : DataSyncScheduler.SchedState) (force : Bool)
        (a b c : DataSyncScheduler.SubSyncRun),
      st.lockHeld = true →
        (DataSyncScheduler.syncData st force a b c).2 = st ∧
        ∀ r, (DataSyncScheduler.syncData st force a b c).1 ≠
          DataSyncScheduler.SyncOutcome.ran r)
    ∧ (∀ (st : DataSyncScheduler.SchedState) (force : Bool)
        (a b c : DataSyncScheduler.SubSyncRun),
      st.lockHeld = true → st.is_syncing = false →
        (DataSyncScheduler.syncData st force a b c).1 =
          DataSyncScheduler.SyncOutcome.skippedLock)
    ∧ (∀ n : ℕ, 0 < n → DataSyncScheduler.overlappingSyncRuns n = 1) := by
  refine ⟨?_, ?_, ?_⟩
  · intro st force a b c hl
    unfold DataSyncScheduler.syncData
    split_ifs with h1 <;> simp [hl]
  · intro st force a b c hl hs
    unfold DataSyncScheduler.syncData
    split_ifs with h1 <;> simp_all
  · intro n hn
    obtain ⟨m, rfl⟩ : ∃ m, n = m + 1 := ⟨n - 1, (Nat.succ_pred_eq_of_pos hn).symm⟩
    unfold DataSyncScheduler.overlappingSyncRuns
    rw [List.range_succ_eq_map]
    have aux : ∀ (l : List ℕ) (k : ℕ),
        l.foldl (fun acc _ => if acc.1 then (acc.1, acc.2) else (true, acc.2 + 1))
          ((true : Bool), k) = (true, k) := by
      intro l
      induction l with
      | nil => intro k; rfl
      | cons x xs ih => intro k; simpa using ih k
    simp [aux]

/-- Witness for C9 amended: a lock-held state skips with the lock message, and
two overlapping callers run exactly one sync. -/
theorem claim_C9_amended_witness :
    (DataSyncScheduler.syncData { is_syncing := false, lockHeld := true } false
        metaFailRun okRun okRun).1 = DataSyncScheduler.SyncOutcome.skippedLock ∧
    DataSyncScheduler.overlappingSyncRuns 2 = 1 :=
  ⟨claim_C9_amended.2.1 { is_syncing := false, lockHeld := true } false
      metaFailRun okRun okRun rfl rfl,
   claim_C9_amended.2.2 2 (by decide)⟩

/-! ### Association-list lemmas for the score merger -/

theorem lookup_upsert_self (k : String) (v : HybridSearcher.ScoreInfo)
    (d : List (String × HybridSearcher.ScoreInfo)) :
    (HybridSearcher.upsert k v d).lookup k = some v := by
  have hk : (k == k) = true := beq_self_eq_true k
  induction d with
  | nil => simp [HybridSearcher.upsert, List.lookup, hk]
  | cons hd tl ih =>
    obtain ⟨k', v'⟩ := hd
    unfold HybridSearcher.upsert
    by_cases h : k = k'
    · subst h
      simp [List.lookup, hk]
    · have hne : (k == k') = false := beq_eq_false_iff_ne.mpr h
      simp [h, List.lookup, hne, ih]

theorem lookup_upsert_ne (k : String) (v : HybridSearcher.ScoreInfo)
    (d : List (String × HybridSearcher.ScoreInfo)) (k' : String) (h : k' ≠ k) :
    (HybridSearcher.upsert k v d).lookup k' = d.lookup k' := by
  have hne : (k' == k) = false := beq_eq_false_iff_ne.mpr h
  induction d with
  | nil => simp [HybridSearcher.upsert, List.lookup, hne]
  | cons hd tl ih =>
    obtain ⟨k₀, v₀⟩ := hd
    unfold HybridSearcher.upsert
    by_cases h0 : k = k₀
    · subst h0
      simp [List.lookup, hne]
    · by_cases h1 : k' = k₀
      · subst h1
        have hk : (k' == k') = true := beq_self_eq_true k'
        simp [h0, List.lookup, hk]
      · have hne1 : (k' == k₀) = false := beq_eq_false_iff_ne.mpr h1
        simp [h0, List.lookup, hne1, ih]
theorem keys_upsert (k : String) (v : HybridSearcher.ScoreInfo)
    (d : List (String × HybridSearcher.ScoreInfo)) :
    (HybridSearcher.upsert k v d).map Prod.fst =
      if k ∈ d.map Prod.fst then d.map Prod.fst else d.map Prod.fst ++ [k] := by
  induction d with
  | nil => simp [HybridSearcher.upsert]
  | cons hd tl ih =>
    obtain ⟨k₀, v₀⟩ := hd
    unfold HybridSearcher.upsert
    by_cases h0 : k = k₀
    · subst h0
      simp
    · simp only [List.map_cons, List.mem_cons]
      rw [if_neg (by simp [h0, Ne.symm])]
      by_cases hmem : k ∈ tl.map Prod.fst
      · simp [hmem, ih, Ne.symm h0]
      · simp only [List.mem_cons] at *
        simp [hmem, ih, h0]

theorem keys_nodup_upsert (k : String) (v : HybridSearcher.ScoreInfo)
    (d : List (String × HybridSearcher.ScoreInfo))
    (h : (d.map Prod.fst).Nodup) :
    ((HybridSearcher.upsert k v d).map Prod.fst).Nodup := by
  rw [keys_upsert]
  by_cases hmem : k ∈ d.map Prod.fst
  · simpa [hmem] using h
  · simp only [hmem, if_false]
    exact List.Nodup.append h (List.nodup_singleton k) (by simpa using hmem)

theorem stepMerge_lookup_ne (w : List (String × ℚ))
    (d : List (String × HybridSearcher.ScoreInfo)) (e : String × SearchResult)
    (k : String) (h : k ≠ HybridSearcher.fieldKey e.2.field) :
    (HybridSearcher.stepMerge w d e).lookup k = d.lookup k := by
  unfold HybridSearcher.stepMerge
  dsimp only
  cases hl : d.lookup (HybridSearcher.fieldKey e.2.field) with
  | none => exact lookup_upsert_ne _ _ _ _ h
  | some info =>
    by_cases hc : info.score < e.2.score * HybridSearcher.weightOf w e.1
    · simp only [hc, if_true]
      exact lookup_upsert_ne _ _ _ _ h
    · simp [hc]

theorem stepMerge_lookup_self (w : List (String × ℚ))
    (d : List (String × HybridSearcher.ScoreInfo)) (e : String × SearchResult) :
    ∃ info, (HybridSearcher.stepMerge w d e).lookup (HybridSearcher.fieldKey e.2.field)
        = some info ∧
      e.2.score * HybridSearcher.weightOf w e.1 ≤ info.score ∧
      ((info.result = e.2 ∧ info.engine = e.1 ∧
          info.score = e.2.score * HybridSearcher.weightOf w e.1) ∨
        d.lookup (HybridSearcher.fieldKey e.2.field) = some info) ∧
      (∀ i₀, d.lookup (HybridSearcher.fieldKey e.2.field) = some i₀ →
        i₀.score ≤ info.score) := by
  unfold HybridSearcher.stepMerge
  dsimp only
  cases hl : d.lookup (HybridSearcher.fieldKey e.2.field) with
  | none =>
    refine ⟨_, lookup_upsert_self _ _ _, le_refl _, Or.inl ⟨rfl, rfl, rfl⟩, ?_⟩
    intro i₀ h0
    exact absurd h0 (by simp)
  | some info =>
    by_cases hc : info.score < e.2.score * HybridSearcher.weightOf w e.1
    · simp only [hc, if_true]
      refine ⟨_, lookup_upsert_self _ _ _, le_refl _, Or.inl ⟨rfl, rfl, rfl⟩, ?_⟩
      intro i₀ h0
      cases h0
      exact le_of_lt hc
    · simp only [hc, if_false]
      refine ⟨info, hl, le_of_not_lt hc, Or.inr rfl, ?_⟩
      intro i₀ h0
      cases h0
      exact le_refl _

theorem keys_nodup_stepMerge (w : List (String × ℚ))
    (d : List (String × HybridSearcher.ScoreInfo)) (e : String × SearchResult)
    (h : (d.map Prod.fst).Nodup) :
    ((HybridSearcher.stepMerge w d e).map Prod.fst).Nodup := by
  unfold HybridSearcher.stepMerge
  dsimp only
  cases d.lookup (HybridSearcher.fieldKey e.2.field) with
  | none => exact keys_nodup_upsert _ _ _ h
  | some info =>
    by_cases hc : info.score < e.2.score * HybridSearcher.weightOf w e.1
    · simp only [hc, if_true]
      exact keys_nodup_upsert _ _ _ h
    · simpa [hc] using h

theorem foldl_stepMerge_none (w : List (String × ℚ)) :
    ∀ (L : List (String × SearchResult)) (d : List (String × HybridSearcher.ScoreInfo))
      (k : String),
      (L.foldl (HybridSearcher.stepMerge w) d).lookup k = none →
      d.lookup k = none ∧
        ∀ e x, (e, x) ∈ L → HybridSearcher.fieldKey x.field ≠ k := by
  intro L
  induction L with
  | nil =>
    intro d k h
    exact ⟨h, by simp⟩
  | cons hd tl ih =>
    intro d k h
    rw [List.foldl_cons] at h
    obtain ⟨hd', htl⟩ := ih (HybridSearcher.stepMerge w d hd) k h
    by_cases hk : k = HybridSearcher.fieldKey hd.2.field
    · subst hk
      obtain ⟨info, hinfo, -⟩ := stepMerge_lookup_self w d hd
      rw [hinfo] at hd'
      cases hd'
    · rw [stepMerge_lookup_ne w d hd k hk] at hd'
      refine ⟨hd', ?_⟩
      intro e x hx
      rw [List.mem_cons] at hx
      rcases hx with hx | hx
      · cases hx
        exact fun hk2 => hk (hk2.symm)
      · exact htl e x hx

theorem foldl_stepMerge_some (w : List (String × ℚ)) :
    ∀ (L : List (String × SearchResult)) (d : List (String × HybridSearcher.ScoreInfo))
      (k : String) (info : HybridSearcher.ScoreInfo),
      (L.foldl (HybridSearcher.stepMerge w) d).lookup k = some info →
      ((d.lookup k = some info ∨
          ∃ e x, (e, x) ∈ L ∧ HybridSearcher.fieldKey x.field = k ∧
            info.result = x ∧ info.engine = e ∧
            info.score = x.score * HybridSearcher.weightOf w e)
        ∧ (∀ e x, (e, x) ∈ L → HybridSearcher.fieldKey x.field = k →
            x.score * HybridSearcher.weightOf w e ≤ info.score)
        ∧ (∀ i₀, d.lookup k = some i₀ → i₀.score ≤ info.score)) := by
  intro L
  induction L with
  | nil =>
    intro d k info h
    simp only [List.foldl_nil] at h
    refine ⟨Or.inl h, by simp, ?_⟩
    intro i₀ h0
    rw [h] at h0
    cases h0
    exact le_refl _
  | cons hd tl ih =>
    intro d k info h
    rw [List.foldl_cons] at h
    obtain ⟨horig, hdom, hmono⟩ := ih (HybridSearcher.stepMerge w d hd) k info h
    by_cases hk : k = HybridSearcher.fieldKey hd.2.field
    · subst hk
      obtain ⟨nv, hnv, hwle, hnvorig, hnvmono⟩ := stepMerge_lookup_self w d hd
      have hnvinfo : nv.score ≤ info.score := hmono nv hnv
      constructor
      · rcases horig with horig | horig
        · rw [hnv] at horig
          cases horig
          rcases hnvorig with ⟨h1, h2, h3⟩ | hd2
          · exact Or.inr ⟨hd.1, hd.2, List.mem_cons_self hd tl, rfl, h1, h2, h3⟩
          · exact Or.inl hd2
        · obtain ⟨e, x, hx, rest⟩ := horig
          exact Or.inr ⟨e, x, List.mem_cons_of_mem hd hx, rest⟩
      refine ⟨?_, ?_⟩
      · intro e x hx hkey
        rw [List.mem_cons] at hx
        rcases hx with hx | hx
        · cases hx
          exact le_trans hwle hnvinfo
        · exact hdom e x hx hkey
      · intro i₀ h0
        exact le_trans (hnvmono i₀ h0) hnvinfo
    · rw [stepMerge_lookup_ne w d hd k hk] at horig hmono
      constructor
      · rcases horig with horig | horig
        · exact Or.inl horig
        · obtain ⟨e, x, hx, rest⟩ := horig
          exact Or.inr ⟨e, x, List.mem_cons_of_mem hd hx, rest⟩
      refine ⟨?_, hmono⟩
      intro e x hx hkey
      rw [List.mem_cons] at hx
      rcases hx with hx | hx
      · cases hx
        exact absurd hkey.symm hk
      · exact hdom e x hx hkey

theorem keys_nodup_fieldScores_aux (w : List (String × ℚ)) :
    ∀ (L : List (String × SearchResult)) (d : List (String × HybridSearcher.ScoreInfo)),
      (d.map Prod.fst).Nodup →
      ((L.foldl (HybridSearcher.stepMerge w) d).map Prod.fst).Nodup := by
  intro L
  induction L with
  | nil => intro d h; simpa using h
  | cons hd tl ih =>
    intro d h
    rw [List.foldl_cons]
    exact ih _ (keys_nodup_stepMerge w d hd h)

theorem keys_nodup_fieldScores (w : List (String × ℚ))
    (rs : List (String × SearchResponse)) :
    ((HybridSearcher.fieldScores w rs).map Prod.fst).Nodup :=
  keys_nodup_fieldScores_aux w (HybridSearcher.allEntries rs) [] (by simp)

theorem lookup_of_mem_nodup :
    ∀ {d : List (String × HybridSearcher.ScoreInfo)}, (d.map Prod.fst).Nodup →
      ∀ {k : String} {v : HybridSearcher.ScoreInfo}, (k, v) ∈ d → d.lookup k = some v := by
  intro d
  induction d with
  | nil => intro _ k v h; cases h
  | cons hd tl ih =>
    obtain ⟨k₀, v₀⟩ := hd
    intro hnd k v hmem
    simp only [List.map_cons, List.nodup_cons] at hnd
    obtain ⟨hk₀, hndtl⟩ := hnd
    rw [List.mem_cons] at hmem
    rcases hmem with hmem | hmem
    · cases hmem
      simp [List.lookup]
    · have hk : k ≠ k₀ := by
        intro hkk
        subst hkk
        exact hk₀ (by
          rw [List.mem_map]
          exact ⟨(k, v), hmem, rfl⟩)
      have : (k == k₀) = false := beq_eq_false_iff_ne.mpr hk
      simp only [List.lookup, this]
      exact ih hndtl hmem

/-- The full specification of each entry of the merge dict: its key is the
key of its stored result, the stored score is the weighted score of an actual
input result, and it dominates every input result with the same key. -/
theorem fieldScores_entry_spec (w : List (String × ℚ))
    (rs : List (String × SearchResponse)) (k : String)
    (info : HybridSearcher.ScoreInfo)
    (hmem : (k, info) ∈ HybridSearcher.fieldScores w rs) :
    (∃ e x, (e, x) ∈ HybridSearcher.allEntries rs ∧
        HybridSearcher.fieldKey x.field = k ∧ info.result = x ∧ info.engine = e ∧
        info.score = x.score * HybridSearcher.weightOf w e)
    ∧ (∀ e x, (e, x) ∈ HybridSearcher.allEntries rs →
        HybridSearcher.fieldKey x.field = k →
        x.score * HybridSearcher.weightOf w e ≤ info.score) := by
  have hl : (HybridSearcher.fieldScores w rs).lookup k = some info :=
    lookup_of_mem_nodup (keys_nodup_fieldScores w rs) hmem
  obtain ⟨horig, hdom, -⟩ :=
    foldl_stepMerge_some w (HybridSearcher.allEntries rs) [] k info hl
  refine ⟨?_, hdom⟩
  rcases horig with horig | horig
  · simp [List.lookup] at horig
  · exact horig

theorem mem_allEntries (rs : List (String × SearchResponse)) (e : String)
    (x : SearchResult) :
    (e, x) ∈ HybridSearcher.allEntries rs ↔
      ∃ p ∈ rs, p.1 = e ∧ x ∈ p.2.results := by
  unfold HybridSearcher.allEntries
  simp only [List.mem_flatMap, List.mem_map, Prod.mk.injEq]
  constructor
  · rintro ⟨p, hp, r, hr, he, hx⟩
    exact ⟨p, hp, he, hx ▸ hr⟩
  · rintro ⟨p, hp, he, hx⟩
    exact ⟨p, hp, x, hx, he, rfl⟩

theorem mem_mergeSearchResults (w : List (String × ℚ))
    (rs : List (String × SearchResponse)) (r : SearchResult) :
    r ∈ HybridSearcher.mergeSearchResults w rs ↔
      ∃ kv ∈ HybridSearcher.fieldScores w rs, r = HybridSearcher.toMerged kv.2 := by
  unfold HybridSearcher.mergeSearchResults
  rw [(List.mergeSort_perm _ _).mem_iff]
  simp only [List.mem_map]
  constructor
  · rintro ⟨kv, hkv, hr⟩
    exact ⟨kv, hkv, hr.symm⟩
  · rintro ⟨kv, hkv, hr⟩
    exact ⟨kv, hkv, hr.symm⟩

/-- C6: the merged list has at most one entry per distinct entity identity
(table name, column name); each retained entry carries the weighted score
`raw_score * engine_weight` of an actual input result with that identity and
dominates the weighted score of every input result with the same identity. -/
theorem claim_C6 (w : List (String × ℚ)) (rs : List (String × SearchResponse)) :
    (HybridSearcher.mergeSearchResults w rs).Pairwise
      (fun a b => ¬ (a.field.table_name = b.field.table_name ∧
                     a.field.column_name = b.field.column_name))
    ∧ (∀ r ∈ HybridSearcher.mergeSearchResults w rs,
        ∀ p ∈ rs, ∀ x ∈ p.2.results,
          x.field.table_name = r.field.table_name →
          x.field.column_name = r.field.column_name →
          x.score * HybridSearcher.weightOf w p.1 ≤ r.score)
    ∧ (∀ r ∈ HybridSearcher.mergeSearchResults w rs,
        ∃ p ∈ rs, ∃ x ∈ p.2.results,
          r.field = x.field ∧ r.score = x.score * HybridSearcher.weightOf w p.1 ∧
          r.search_method = some p.1) := by
  have keyeq : ∀ (f g : MetadataField), f.table_name = g.table_name →
      f.column_name = g.column_name →
      HybridSearcher.fieldKey f = HybridSearcher.fieldKey g := by
    intro f g h1 h2
    unfold HybridSearcher.fieldKey
    rw [h1, h2]
  have entrykey : ∀ kv ∈ HybridSearcher.fieldScores w rs,
      HybridSearcher.fieldKey (HybridSearcher.toMerged kv.2).field = kv.1 := by
    intro kv hkv
    obtain ⟨⟨e, x, hx, hkey, hres, -, -⟩, -⟩ :=
      fieldScores_entry_spec w rs kv.1 kv.2 hkv
    unfold HybridSearcher.toMerged
    dsimp only
    rw [hres]
    exact hkey
  refine ⟨?_, ?_, ?_⟩
  · unfold HybridSearcher.mergeSearchResults
    rw [(List.mergeSort_perm _ _).pairwise_iff (by
      intro a b hab h
      exact hab ⟨h.1.symm, h.2.symm⟩)]
    rw [List.pairwise_map]
    have hpair : (HybridSearcher.fieldScores w rs).Pairwise (fun a b => a.1 ≠ b.1) :=
      List.pairwise_map.mp (keys_nodup_fieldScores w rs)
    refine List.Pairwise.imp_of_mem ?_ hpair
    intro a b ha hb hne hid
    exact hne ((entrykey a ha).symm.trans
      ((keyeq _ _ hid.1 hid.2).trans (entrykey b hb)))
  · intro r hr p hp x hx h1 h2
    obtain ⟨kv, hkv, rfl⟩ := (mem_mergeSearchResults w rs r).mp hr
    obtain ⟨-, hdom⟩ := fieldScores_entry_spec w rs kv.1 kv.2 hkv
    have hxe : (p.1, x) ∈ HybridSearcher.allEntries rs :=
      (mem_allEntries rs p.1 x).mpr ⟨p, hp, rfl, hx⟩
    have hkey : HybridSearcher.fieldKey x.field = kv.1 :=
      (keyeq _ _ h1 h2).trans (entrykey kv hkv)
    exact hdom p.1 x hxe hkey
  · intro r hr
    obtain ⟨kv, hkv, rfl⟩ := (mem_mergeSearchResults w rs r).mp hr
    obtain ⟨⟨e, x, hx, hkey, hres, heng, hsc⟩, -⟩ :=
      fieldScores_entry_spec w rs kv.1 kv.2 hkv
    obtain ⟨p, hp, hpe, hpx⟩ := (mem_allEntries rs e x).mp hx
    refine ⟨p, hp, x, hpx, ?_, ?_, ?_⟩
    · unfold HybridSearcher.toMerged
      dsimp only
      rw [hres]
    · unfold HybridSearcher.toMerged
      dsimp only
      rw [hsc, hpe]
    · unfold HybridSearcher.toMerged
      dsimp only
      rw [heng, hpe]

theorem mergeSort_singleton_eq {α : Type} (a : α) (le : α → α → Bool) :
    List.mergeSort [a] le = [a] :=
  List.perm_singleton.mp (List.mergeSort_perm _ _)

theorem fieldScores_es_ac :
    HybridSearcher.fieldScores HybridSearcher.defaultWeights
      [("elasticsearch", respES), ("ac_matcher", respAC)] =
    [("orders_status",
      { result := { field := statusField, score := 2, matched_text := some "alias: 状态",
                    search_method := some "ac_matcher" },
        score := 9/5, original_score := 2, engine := "ac_matcher", weight := 9/10 })] := by
  unfold HybridSearcher.fieldScores HybridSearcher.allEntries HybridSearcher.stepMerge
    HybridSearcher.upsert HybridSearcher.weightOf HybridSearcher.fieldKey respAC respES
  have hb1 : ("ac_matcher" == "elasticsearch") = false := by decide
  have hb2 : ("elasticsearch" == "elasticsearch") = true := by decide
  have hb3 : ("orders_status" == "orders" ++ "_" ++ "status") = true := by decide
  norm_num [List.lookup, hb1, hb2, hb3]
  decide

theorem merge_es_ac :
    HybridSearcher.mergeSearchResults HybridSearcher.defaultWeights
      [("elasticsearch", respES), ("ac_matcher", respAC)] =
    [{ field := statusField, score := 9/5, matched_text := some "alias: 状态",
       search_method := some "ac_matcher" }] := by
  unfold HybridSearcher.mergeSearchResults
  rw [fieldScores_es_ac]
  simp only [List.map_cons, List.map_nil]
  rw [mergeSort_singleton_eq]
  rfl

/-- Witness for C6 at a two-engine overlap on the same entity: the retained
entry's score 9/5 (= 2 × 0.9 from the exact-match engine) dominates the
full-text engine's weighted score 3/2 × 1. -/
theorem claim_C6_witness :
    (3/2 : ℚ) * HybridSearcher.weightOf HybridSearcher.defaultWeights "elasticsearch"
      ≤ 9/5 :=
  (claim_C6 HybridSearcher.defaultWeights
      [("elasticsearch", respES), ("ac_matcher", respAC)]).2.1
    { field := statusField, score := 9/5, matched_text := some "alias: 状态",
      search_method := some "ac_matcher" }
    (by rw [merge_es_ac]; exact List.mem_singleton.mpr rfl)
    ("elasticsearch", respES) (List.mem_cons_self _ _)
    { field := statusField, score := 3/2, matched_text := none,
      search_method := some "elasticsearch" }
    (List.mem_singleton.mpr rfl) rfl rfl

/-! ### C7 — per-engine failure containment in hybrid search -/

theorem mergeSearchResults_congr (w : List (String × ℚ))
    {rs₁ rs₂ : List (String × SearchResponse)}
    (h : HybridSearcher.allEntries rs₁ = HybridSearcher.allEntries rs₂) :
    HybridSearcher.mergeSearchResults w rs₁ = HybridSearcher.mergeSearchResults w rs₂ := by
  unfold HybridSearcher.mergeSearchResults HybridSearcher.fieldScores
  rw [h]

/-- The entry stream of the fan-out (failed engines replaced by the empty
response) equals the entry stream of the healthy responses alone. -/
theorem allEntries_fanout (engines : List String)
    (outcomes : String → Except Unit SearchResponse) (req : SearchRequest) :
    HybridSearcher.allEntries ((engines.map fun e => (e, outcomes e)).map fun eo =>
        (eo.1, match eo.2 with
               | .ok r => r
               | .error _ => HybridSearcher.emptyResponse req))
      = HybridSearcher.allEntries (engines.filterMap fun e' =>
          match outcomes e' with
          | .ok r => some (e', r)
          | .error _ => none) := by
  induction engines with
  | nil => rfl
  | cons hd tl ih =>
    cases h0 : outcomes hd with
    | ok r =>
      simp only [List.map_cons, List.filterMap_cons, h0]
      unfold HybridSearcher.allEntries
      simp only [List.flatMap_cons]
      unfold HybridSearcher.allEntries at ih
      rw [ih]
    | error u =>
      simp only [List.map_cons, List.filterMap_cons, h0]
      unfold HybridSearcher.allEntries
      simp only [List.flatMap_cons]
      unfold HybridSearcher.allEntries at ih
      rw [ih]
      rfl

theorem hybrid_used_methods (engines : List String)
    (outcomes : String → Except Unit SearchResponse)
    (weights : List (String × ℚ)) (req : SearchRequest) :
    (HybridSearcher.hybridSearch engines outcomes weights req).search_methods
      = engines.filter fun e' => (outcomes e').isOk := by
  unfold HybridSearcher.hybridSearch
  dsimp only
  induction engines with
  | nil => rfl
  | cons hd tl ih =>
    simp only [List.map_cons, List.filterMap_cons, List.filter_cons]
    cases h0 : outcomes hd with
    | ok r => simpa [h0, Except.isOk, Except.toBool] using ih
    | error u => simpa [h0, Except.isOk, Except.toBool] using ih

/-- C7: when one engine fails and the others succeed, the hybrid response's
`search_methods` is exactly the list of surviving engines (the failed engine
omitted) and the results are the merged results of the healthy engines'
responses alone, truncated to the requested size. -/
theorem claim_C7 (engines : List String)
    (outcomes : String → Except Unit SearchResponse)
    (weights : List (String × ℚ)) (req : SearchRequest) (e : String)
    (he : e ∈ engines) (hfail : outcomes e = Except.error ())
    (hok : ∀ e' ∈ engines, e' ≠ e → (outcomes e').isOk = true) :
    e ∉ (HybridSearcher.hybridSearch engines outcomes weights req).search_methods
    ∧ (HybridSearcher.hybridSearch engines outcomes weights req).search_methods
        = engines.filter (fun e' => e' ≠ e)
    ∧ (HybridSearcher.hybridSearch engines outcomes weights req).results
        = (HybridSearcher.mergeSearchResults weights
            (engines.filterMap fun e' =>
              match outcomes e' with
              | .ok r => some (e', r)
              | .error _ => none)).take req.size := by
  have hfilter : (engines.filter fun e' => (outcomes e').isOk)
      = engines.filter (fun e' => e' ≠ e) := by
    apply List.filter_congr
    intro x hx
    by_cases hxe : x = e
    · subst hxe
      simp [hfail, Except.isOk, Except.toBool]
    · simp [hok x hx hxe, hxe]
  refine ⟨?_, ?_, ?_⟩
  · rw [hybrid_used_methods, hfilter]
    simp
  · rw [hybrid_used_methods, hfilter]
  · show (HybridSearcher.mergeSearchResults weights _).take req.size = _
    rw [mergeSearchResults_congr weights (allEntries_fanout engines outcomes req)]

/-- Witness for C7: Elasticsearch down, the other two engines healthy. -/
theorem claim_C7_witness :
    "elasticsearch" ∉ (HybridSearcher.hybridSearch
        ["elasticsearch", "ac_matcher", "similarity"] outcomesEsDown
        HybridSearcher.defaultWeights hybridReq).search_methods
    ∧ (HybridSearcher.hybridSearch ["elasticsearch", "ac_matcher", "similarity"]
        outcomesEsDown HybridSearcher.defaultWeights hybridReq).search_methods
        = ["elasticsearch", "ac_matcher", "similarity"].filter
            (fun e' => e' ≠ "elasticsearch")
    ∧ (HybridSearcher.hybridSearch ["elasticsearch", "ac_matcher", "similarity"]
        outcomesEsDown HybridSearcher.defaultWeights hybridReq).results
        = (HybridSearcher.mergeSearchResults HybridSearcher.defaultWeights
            (["elasticsearch", "ac_matcher", "similarity"].filterMap fun e' =>
              match outcomesEsDown e' with
              | .ok r => some (e', r)
              | .error _ => none)).take hybridReq.size :=
  claim_C7 ["elasticsearch", "ac_matcher", "similarity"] outcomesEsDown
    HybridSearcher.defaultWeights hybridReq "elasticsearch"
    (by decide) rfl (by decide)

/-! ### C5 and C10 — fuzzy-engine score bounds and the length-mismatch scenario -/

/-- The `min/max` length ratio of two strings lies in `[0, 1]`. -/
theorem lengthRatio_bounds (q t : String) :
    0 ≤ SimilarityMatcher.lengthRatio q t ∧ SimilarityMatcher.lengthRatio q t ≤ 1 := by
  unfold SimilarityMatcher.lengthRatio
  rcases Nat.eq_zero_or_pos (max q.length t.length) with h | h
  · rw [h]
    norm_num
  · have hb : (0:ℚ) < ((max q.length t.length : ℕ) : ℚ) := by exact_mod_cast h
    constructor
    · apply div_nonneg _ hb.le
      positivity
    · rw [div_le_one hb]
      exact_mod_cast (min_le_max : min q.length t.length ≤ max q.length t.length)

/-- The per-string similarity (equality / containment / edit ratio) lies in
`[0, 1]` whenever the edit-ratio oracle does. -/
theorem stringSimilarity_bounds (ratio : String → String → ℚ)
    (hr : ∀ a b, 0 ≤ ratio a b ∧ ratio a b ≤ 1) (q tl : String) :
    0 ≤ SimilarityMatcher.stringSimilarity ratio q tl ∧
      SimilarityMatcher.stringSimilarity ratio q tl ≤ 1 := by
  unfold SimilarityMatcher.stringSimilarity
  split_ifs with h1 h2
  · constructor <;> norm_num
  · constructor <;> norm_num
  · exact hr q tl

/-- The length-adjusted similarity `sim * (0.7 + 0.3 * lr)` lies in `[0, 1]`. -/
theorem adjustedSimilarity_bounds (ratio : String → String → ℚ)
    (hr : ∀ a b, 0 ≤ ratio a b ∧ ratio a b ≤ 1) (q t : String) :
    0 ≤ SimilarityMatcher.adjustedSimilarity ratio q t ∧
      SimilarityMatcher.adjustedSimilarity ratio q t ≤ 1 := by
  unfold SimilarityMatcher.adjustedSimilarity
  obtain ⟨hs0, hs1⟩ := stringSimilarity_bounds ratio hr q (lower t)
  obtain ⟨hl0, hl1⟩ := lengthRatio_bounds q t
  constructor
  · apply mul_nonneg hs0
    linarith
  · calc SimilarityMatcher.stringSimilarity ratio q (lower t) *
        (7/10 + 3/10 * SimilarityMatcher.lengthRatio q t)
        ≤ 1 * (7/10 + 3/10 * SimilarityMatcher.lengthRatio q t) := by
          apply mul_le_mul_of_nonneg_right hs1
          linarith
      _ ≤ 1 := by linarith

/-- One fold step of the similarity loop never decreases the running maximum. -/
theorem simStep_mono (ratio : String → String → ℚ) (q : String) (acc : ℚ × String)
    (text : String) : acc.1 ≤ (SimilarityMatcher.simStep ratio q acc text).1 := by
  unfold SimilarityMatcher.simStep
  dsimp only
  split_ifs with h1 h2
  · exact le_refl _
  · exact le_of_lt h2
  · exact le_refl _

/-- One fold step keeps the running maximum at or below `1`. -/
theorem simStep_le_one (ratio : String → String → ℚ)
    (hr : ∀ a b, 0 ≤ ratio a b ∧ ratio a b ≤ 1) (q : String) (acc : ℚ × String)
    (text : String) (hacc : acc.1 ≤ 1) :
    (SimilarityMatcher.simStep ratio q acc text).1 ≤ 1 := by
  unfold SimilarityMatcher.simStep
  dsimp only
  split_ifs with h1 h2
  · exact hacc
  · exact (adjustedSimilarity_bounds ratio hr q text).2
  · exact hacc

/-- After stepping on a non-empty string, the running maximum is at least that
string's adjusted similarity. -/
theorem simStep_ge_adj (ratio : String → String → ℚ) (q : String) (acc : ℚ × String)
    (text : String) (h : ¬ text = "") :
    SimilarityMatcher.adjustedSimilarity ratio q text ≤
      (SimilarityMatcher.simStep ratio q acc text).1 := by
  unfold SimilarityMatcher.simStep
  rw [if_neg h]
  dsimp only
  split_ifs with h2
  · exact le_refl _
  · exact le_of_not_lt h2

/-- The whole similarity fold never decreases the running maximum. -/
theorem foldl_simStep_mono (ratio : String → String → ℚ) (q : String) :
    ∀ (l : List String) (acc : ℚ × String),
      acc.1 ≤ (l.foldl (SimilarityMatcher.simStep ratio q) acc).1 := by
  intro l
  induction l with
  | nil => intro acc; exact le_refl _
  | cons hd tl ih =>
    intro acc
    rw [List.foldl_cons]
    exact le_trans (simStep_mono ratio q acc hd) (ih _)

/-- The whole similarity fold keeps the running maximum at or below `1`. -/
theorem foldl_simStep_le_one (ratio : String → String → ℚ)
    (hr : ∀ a b, 0 ≤ ratio a b ∧ ratio a b ≤ 1) (q : String) :
    ∀ (l : List String) (acc : ℚ × String), acc.1 ≤ 1 →
      (l.foldl (SimilarityMatcher.simStep ratio q) acc).1 ≤ 1 := by
  intro l
  induction l with
  | nil => intro acc h; exact h
  | cons hd tl ih =>
    intro acc h
    rw [List.foldl_cons]
    exact ih _ (simStep_le_one ratio hr q acc hd h)

/-- The token-overlap update never decreases the running maximum. -/
theorem jaccardUpdate_mono (q ft : String) (acc : ℚ × String) :
    acc.1 ≤ (SimilarityMatcher.jaccardUpdate q ft acc).1 := by
  unfold SimilarityMatcher.jaccardUpdate
  dsimp only
  split_ifs with h1 h2 h3
  · exact le_of_lt h3
  · exact le_refl _
  · exact le_refl _
  · exact le_refl _

/-- The Jaccard overlap `|inter| / |union|` is at most `1`, so the
token-overlap update keeps the running maximum at or below `1`. -/
theorem jaccardUpdate_le_one (q ft : String) (acc : ℚ × String) (hacc : acc.1 ≤ 1) :
    (SimilarityMatcher.jaccardUpdate q ft acc).1 ≤ 1 := by
  unfold SimilarityMatcher.jaccardUpdate
  dsimp only
  split_ifs with h1 h2 h3
  · have hsub : ((SimilarityMatcher.simpleTokenize q).dedup.filter
        (· ∈ (SimilarityMatcher.simpleTokenize ft).dedup))
        ⊆ ((SimilarityMatcher.simpleTokenize q) ++
            (SimilarityMatcher.simpleTokenize ft)).dedup := by
      intro x hx
      rw [List.mem_filter] at hx
      rw [List.mem_dedup]
      exact List.mem_append_left _ (List.mem_dedup.mp hx.1)
    have hnd : ((SimilarityMatcher.simpleTokenize q).dedup.filter
        (· ∈ (SimilarityMatcher.simpleTokenize ft).dedup)).Nodup :=
      (List.nodup_dedup _).filter _
    have hlen := (List.subperm_of_subset hnd hsub).length_le
    have hpos : (0:ℚ) < (((SimilarityMatcher.simpleTokenize q ++
        SimilarityMatcher.simpleTokenize ft).dedup).length : ℚ) := by
      have hne : ((SimilarityMatcher.simpleTokenize q ++
          SimilarityMatcher.simpleTokenize ft).dedup) ≠ [] := h2
      have := List.length_pos.mpr hne
      exact_mod_cast this
    rw [div_le_one hpos]
    exact_mod_cast hlen
  · exact hacc
  · exact hacc
  · exact hacc

/-- The similarity score `_calculate_similarity` returns is at most `1`
whenever the edit-ratio oracle stays in `[0, 1]`. -/
theorem calcSim_le_one (ratio : String → String → ℚ)
    (hr : ∀ a b, 0 ≤ ratio a b ∧ ratio a b ≤ 1) (q ft : String)
    (texts : List String) (tok : Bool) :
    (SimilarityMatcher.calculateSimilarity ratio q ft texts tok).1 ≤ 1 := by
  unfold SimilarityMatcher.calculateSimilarity
  dsimp only
  have hacc1 : (if (0:ℚ) < ratio q ft then
      ((ratio q ft, if 50 < ft.length then ft.take 50 ++ "..." else ft) : ℚ × String)
      else ((0:ℚ), "")).1 ≤ 1 := by
    split_ifs <;> first
      | exact (hr q ft).2
      | exact (by norm_num : (0:ℚ) ≤ 1)
  have h2 := foldl_simStep_le_one ratio hr q texts _ hacc1
  cases tok with
  | false => simpa using h2
  | true => simpa using jaccardUpdate_le_one q ft _ h2

/-- Query `"a"` against text `"abcdefghij"` takes the containment short-circuit
`0.9` and the length adjustment `0.7 + 0.3 * (1/10)`, giving exactly `0.657`
without ever consulting the edit-ratio oracle. -/
theorem adjSim_query_a_long (ratio : String → String → ℚ) :
    SimilarityMatcher.adjustedSimilarity ratio "a" "abcdefghij" = 657/1000 := by
  unfold SimilarityMatcher.adjustedSimilarity SimilarityMatcher.stringSimilarity
    SimilarityMatcher.lengthRatio
  rw [if_neg (by decide), if_pos (by decide)]
  have h1 : ("a" : String).length = 1 := rfl
  have h2 : ("abcdefghij" : String).length = 10 := rfl
  rw [h1, h2]
  norm_num [Nat.min_def, Nat.max_def]

/-- Under the zero-ratio oracle, query `"a"` against `"xyz"` scores `0`. -/
theorem adjSim_query_a_xyz : SimilarityMatcher.adjustedSimilarity ratioZero "a" "xyz" = 0 := by
  have h1 : ¬(("a" : String) = lower "xyz") := by decide
  have h2 : (strContains (lower "xyz") "a" || strContains "a" (lower "xyz")) = false := by
    decide
  unfold SimilarityMatcher.adjustedSimilarity SimilarityMatcher.stringSimilarity ratioZero
  norm_num [h1, h2]

/-- Full evaluation of `_calculate_similarity` on the length-mismatch corpus
item under the zero-ratio oracle: the maximum is `0.657`, attained at
`"abcdefghij"`. -/
theorem calcSim_mismatch_eval : SimilarityMatcher.calculateSimilarity ratioZero "a"
    "abcdefghij xyz" ["abcdefghij", "xyz"] true = (657/1000, "abcdefghij") := by
  have h0 : ratioZero "a" "abcdefghij xyz" = 0 := rfl
  have h1 : ¬(("abcdefghij" : String) = "") := by decide
  have h2 : ¬(("xyz" : String) = "") := by decide
  have h3 : SimilarityMatcher.simpleTokenize "a" = [] := by decide
  unfold SimilarityMatcher.calculateSimilarity SimilarityMatcher.simStep
    SimilarityMatcher.jaccardUpdate
  norm_num [h0, h1, h2, h3, adjSim_query_a_long, adjSim_query_a_xyz]

/-- The length ratio of `"a"` against `"abcdefghij"` is exactly `1/10`. -/
theorem lengthRatio_mismatch : SimilarityMatcher.lengthRatio "a" "abcdefghij" = 1/10 := by
  unfold SimilarityMatcher.lengthRatio
  have h1 : ("a" : String).length = 1 := rfl
  have h2 : ("abcdefghij" : String).length = 10 := rfl
  rw [h1, h2]
  norm_num [Nat.min_def, Nat.max_def]

/-- Full evaluation of `search_fields` on the length-mismatch scenario under
the zero-ratio oracle: the entity IS returned, scored `0.657`. -/
theorem searchFields_mismatch_eval :
    (SimilarityMatcher.searchFields ratioZero mismatchCorpus "a" none false true
        10 true).results
      = [{ field := mismatchField, score := 657/1000,
           matched_text := some "similarity: abcdefghij",
           search_method := some "similarity" }] := by
  have hc : mismatchCorpus =
      [{ field := mismatchField, text := "abcdefghij xyz",
         searchable_texts := ["abcdefghij", "xyz"] }] := by decide
  have hlq : lower "a" = "a" := by decide
  unfold SimilarityMatcher.searchFields
  rw [hc, hlq]
  simp only [List.filterMap_cons, List.filterMap_nil]
  have he : mismatchField.is_enabled = true := rfl
  norm_num [calcSim_mismatch_eval, he]
  decide

/-- C5: the spec predicts the `"a"` vs `"abcdefghij"` length mismatch pushes
the fuzzy score below the `0.1` floor and excludes the entity.  In the code the
length factor `1/10` enters only as `0.7 + 0.3 * (1/10) = 0.73`, and the
containment short-circuit contributes `0.9`, so the score is
`0.9 * 0.73 = 0.657 > 0.1` and the entity is returned, refuting the claim. -/
theorem claim_C5_counterexample :
    (SimilarityMatcher.searchFields ratioZero mismatchCorpus "a" none false true
        10 true).results
      = [{ field := mismatchField, score := 657/1000,
           matched_text := some "similarity: abcdefghij",
           search_method := some "similarity" }]
    ∧ SimilarityMatcher.lengthRatio "a" "abcdefghij" = 1/10
    ∧ (1:ℚ)/10 < 657/1000 :=
  ⟨searchFields_mismatch_eval, lengthRatio_mismatch, by norm_num⟩

/-- For every edit-ratio oracle, the similarity of `"a"` against the mismatch
blob is at least `0.657`: the containment branch never consults the oracle and
the fold only ever raises the running maximum. -/
theorem calcSim_mismatch_lower (ratio : String → String → ℚ) :
    657/1000 ≤ (SimilarityMatcher.calculateSimilarity ratio "a" "abcdefghij xyz"
      ["abcdefghij", "xyz"] true).1 := by
  have key : ∀ acc : ℚ × String,
      657/1000 ≤ ((["abcdefghij", "xyz"] : List String).foldl
        (SimilarityMatcher.simStep ratio "a") acc).1 := by
    intro acc
    rw [List.foldl_cons]
    refine le_trans ?_ (foldl_simStep_mono ratio "a" ["xyz"] _)
    calc (657/1000 : ℚ) = SimilarityMatcher.adjustedSimilarity ratio "a" "abcdefghij" :=
          (adjSim_query_a_long ratio).symm
      _ ≤ _ := simStep_ge_adj ratio "a" acc "abcdefghij" (by decide)
  unfold SimilarityMatcher.calculateSimilarity
  dsimp only
  rw [if_pos rfl]
  exact le_trans (key _) (jaccardUpdate_mono _ _ _)

/-- C5 (amended): for every edit-ratio oracle the mismatch entity is returned
by `search_fields`, with a score of at least `0.657`, because the length
factor only rescales the containment similarity to `0.9 * 0.73`. -/
theorem claim_C5_amended (ratio : String → String → ℚ) :
    ∃ r ∈ (SimilarityMatcher.searchFields ratio mismatchCorpus "a" none false true
        10 true).results,
      r.field = mismatchField ∧ 657/1000 ≤ r.score := by
  have hc : mismatchCorpus =
      [{ field := mismatchField, text := "abcdefghij xyz",
         searchable_texts := ["abcdefghij", "xyz"] }] := by decide
  have hlq : lower "a" = "a" := by decide
  have hge := calcSim_mismatch_lower ratio
  have hfloor : 1/10 < (SimilarityMatcher.calculateSimilarity ratio "a" "abcdefghij xyz"
      ["abcdefghij", "xyz"] true).1 := lt_of_lt_of_le (by norm_num) hge
  have he : mismatchField.is_enabled = true := rfl
  unfold SimilarityMatcher.searchFields
  rw [hc, hlq]
  simp only [List.filterMap_cons, List.filterMap_nil]
  norm_num [he, hfloor]
  exact hge

/-- C10: every result returned by the fuzzy engine's `search_fields` has a
score strictly above the `0.1` floor and at most `1`, for every edit-ratio
oracle bounded by `[0, 1]`, every corpus, query, filter set, and size. -/
theorem claim_C10 (ratio : String → String → ℚ)
    (hr : ∀ a b, 0 ≤ ratio a b ∧ ratio a b ≤ 1)
    (corpus : List SimilarityMatcher.CorpusItem) (query : String)
    (table_name : Option String) (entity_only enabled_only : Bool)
    (size : ℕ) (use_tokenization : Bool) :
    ∀ r ∈ (SimilarityMatcher.searchFields ratio corpus query table_name entity_only
        enabled_only size use_tokenization).results,
      1/10 < r.score ∧ r.score ≤ 1 := by
  intro r hmem
  unfold SimilarityMatcher.searchFields at hmem
  dsimp only at hmem
  rw [List.mem_map] at hmem
  obtain ⟨m, hm, rfl⟩ := hmem
  have hm2 : m ∈ ((corpus.filterMap fun item =>
      if (match table_name with
          | some t => item.field.table_name != t
          | none => false) then none
      else if entity_only ∧ ¬ item.field.is_entity then none
      else if enabled_only ∧ ¬ item.field.is_enabled then none
      else
        if 1/10 < (SimilarityMatcher.calculateSimilarity ratio (lower query) item.text
            item.searchable_texts use_tokenization).1 then
          some ⟨item.field,
            (SimilarityMatcher.calculateSimilarity ratio (lower query) item.text
              item.searchable_texts use_tokenization).1,
            (SimilarityMatcher.calculateSimilarity ratio (lower query) item.text
              item.searchable_texts use_tokenization).2⟩
        else none) : List SimilarityMatcher.SimMatch) := by
    have := List.take_subset size _ hm
    exact (List.mergeSort_perm _ _).mem_iff.mp this
  rw [List.mem_filterMap] at hm2
  obtain ⟨item, hitem, hf⟩ := hm2
  split_ifs at hf with h1 h2 h3 h4
  · cases hf
    exact ⟨h4, calcSim_le_one ratio hr (lower query) item.text item.searchable_texts
      use_tokenization⟩

/-- Witness for C10: the zero-ratio oracle on the mismatch corpus — the result
list is non-empty and every entry's score lies in `(0.1, 1]`. -/
theorem claim_C10_witness :
    (∀ r ∈ (SimilarityMatcher.searchFields ratioZero mismatchCorpus "a" none false true
        10 true).results, 1/10 < r.score ∧ r.score ≤ 1)
    ∧ (SimilarityMatcher.searchFields ratioZero mismatchCorpus "a" none false true
        10 true).results ≠ [] :=
  ⟨claim_C10 ratioZero (fun a b => ⟨le_refl 0, (by norm_num : (0:ℚ) ≤ 1)⟩) mismatchCorpus
      "a" none false true 10 true,
    by rw [searchFields_mismatch_eval]; simp⟩
